import Mathlib

/-!
Verification development for the kubernetes-mcp repository.

The definitions below are a shallow embedding of the session-oriented tunnel
and stream-collection subsystem: the stream collector
(src/src/utils/stream-helpers.ts), the command executor (src/src/tools/exec.ts),
the port-forward tunnel session registry (src/src/tools/port-forward.ts),
the shell runner (src/src/utils/shell.ts), the error formatter
(src/src/utils/errors.ts) and representative tool dispatch wrappers.
Asynchronous callback-driven code is modelled by an explicit event trace fed
to a state-transition function; promise settlement is modelled by an Option
that is written at most once.
-/

namespace KubernetesMcp

/-! ### Decimal representation round-trip

Helper theory used to reason about session-id strings, which embed port
numbers via decimal rendering (template literals in the source). We prove
that Nat.repr is injective by exhibiting a decoder.
-/

/-- Numeric value of a decimal digit character produced by Nat.digitChar. -/
def digitVal (c : Char) : Nat := c.toNat - 48

/-- Reads a most-significant-first list of decimal digit characters back into
a natural number, threading an accumulator. -/
def ofDigitsAux : List Char → Nat → Nat
  | [], a => a
  | c :: cs, a => ofDigitsAux cs (a * 10 + digitVal c)

/-- Numeric effect of appending the decimal digits of n after an accumulated
prefix a. -/
def pushNum (a n : Nat) : Nat :=
  if n < 10 then a * 10 + n
  else pushNum a (n / 10) * 10 + n % 10
termination_by n
decreasing_by exact Nat.div_lt_self (by omega) (by omega)

theorem digitVal_digitChar (n : Nat) (h : n < 10) :
    digitVal (Nat.digitChar n) = n := by
  interval_cases n <;> rfl

theorem ofDigitsAux_toDigitsCore (fuel : Nat) :
    ∀ n ds a, n < fuel →
      ofDigitsAux (Nat.toDigitsCore 10 fuel n ds) a = ofDigitsAux ds (pushNum a n) := by
  induction fuel with
  | zero => intro n ds a h; omega
  | succ f ih =>
    intro n ds a h
    by_cases h10 : n < 10
    · have hdiv : n / 10 = 0 := Nat.div_eq_of_lt h10
      rw [pushNum]
      simp [Nat.toDigitsCore, hdiv, ofDigitsAux, h10, digitVal_digitChar _ h10,
        Nat.mod_eq_of_lt h10]
    · have hdiv : ¬ n / 10 = 0 := by omega
      have hlt : n / 10 < f := by omega
      rw [pushNum]
      simp only [Nat.toDigitsCore, hdiv, if_false, h10]
      rw [ih (n / 10) (Nat.digitChar (n % 10) :: ds) a hlt]
      simp [ofDigitsAux, digitVal_digitChar (n % 10) (by omega)]

theorem pushNum_zero (n : Nat) : pushNum 0 n = n := by
  induction n using Nat.strong_induction_on with
  | _ n ih =>
    rw [pushNum]
    by_cases h : n < 10
    · simp [h]
    · have hlt : n / 10 < n := Nat.div_lt_self (by omega) (by omega)
      simp only [h, if_false, ih (n / 10) hlt]
      omega

theorem decode_natRepr (n : Nat) : ofDigitsAux (Nat.repr n).data 0 = n := by
  have h := ofDigitsAux_toDigitsCore (n + 1) n [] 0 (Nat.lt_succ_self n)
  simpa [Nat.repr, Nat.toDigits, List.asString, ofDigitsAux, pushNum_zero] using h

theorem natRepr_data_inj {m n : Nat}
    (h : (Nat.repr m).data = (Nat.repr n).data) : m = n := by
  have hm := decode_natRepr m
  rw [h, decode_natRepr n] at hm
  exact hm.symm

/-! ### Stream Collector: collectStream (src/src/utils/stream-helpers.ts)

The source registers three listeners on the PassThrough stream (data, end,
error) and arms one timer. We model its behaviour on an explicit trace of
those four events, processed in order of occurrence. Promise settlement is
the first write to the settled field; Node delivers no data events on a
destroyed stream, which the destroyed flag models.
-/

/-- One observable event during a collectStream invocation. -/
inductive CollectEvent where
  | chunk (data : String)
  | endOfStream
  | errorSig (e : String)
  | timeoutFire
deriving DecidableEq, Repr

/-- State of one collectStream invocation. -/
structure CollectState where
  chunks : List String
  settled : Option (Except String String)
  destroyed : Bool
deriving Repr

def collectInit : CollectState := ⟨[], none, false⟩

/-- One event step of collectStream, translated from the listener bodies:
data pushes the chunk; end resolves with the concatenated buffer; error
rejects; the timer destroys the stream and resolves with the buffer so far.
A promise settles at most once, so a later settle attempt leaves the
recorded outcome unchanged. -/
def collectStep (s : CollectState) (ev : CollectEvent) : CollectState :=
  match ev with
  | .chunk c => if s.destroyed then s else { s with chunks := s.chunks ++ [c] }
  | .endOfStream =>
      match s.settled with
      | some _ => s
      | none => { s with settled := some (.ok (String.join s.chunks)) }
  | .errorSig e =>
      match s.settled with
      | some _ => s
      | none => { s with settled := some (.error e) }
  | .timeoutFire =>
      match s.settled with
      | some _ => s
      | none => { s with settled := some (.ok (String.join s.chunks)), destroyed := true }

/-- Final state of collectStream after the given event trace. -/
def runCollect (events : List CollectEvent) : CollectState :=
  events.foldl collectStep collectInit

/-- The settlement of the promise returned by collectStream: none when no
completion event has occurred, otherwise the first resolution or rejection. -/
def collectStream (events : List CollectEvent) : Option (Except String String) :=
  (runCollect events).settled

/-- Whether an event settles the collectStream promise. -/
def isSettling : CollectEvent → Bool
  | .chunk _ => false
  | _ => true

/-- Specification-level scan: outcome determined by the first settling event,
with the bytes delivered strictly before it. -/
def firstCollectOutcome (acc : List String) :
    List CollectEvent → Option (Except String String)
  | [] => none
  | .chunk c :: rest => firstCollectOutcome (acc ++ [c]) rest
  | .endOfStream :: _ => some (.ok (String.join acc))
  | .timeoutFire :: _ => some (.ok (String.join acc))
  | .errorSig e :: _ => some (.error e)

theorem foldl_collectStep_settled (evs : List CollectEvent) :
    ∀ s o, s.settled = some o → (evs.foldl collectStep s).settled = some o := by
  induction evs with
  | nil => intro s o h; simpa using h
  | cons ev rest ih =>
    intro s o h
    have hstep : (collectStep s ev).settled = some o := by
      cases ev <;> simp [collectStep, h]
      · split <;> simp [h]
    exact ih _ o hstep

theorem foldl_collectStep_destroyed_of_settled (evs : List CollectEvent) :
    ∀ s o, s.settled = some o →
      (evs.foldl collectStep s).destroyed = s.destroyed := by
  induction evs with
  | nil => intro s o h; simp
  | cons ev rest ih =>
    intro s o h
    have hset : (collectStep s ev).settled = some o := by
      cases ev <;> simp [collectStep, h]
      · split <;> simp [h]
    have hdes : (collectStep s ev).destroyed = s.destroyed := by
      cases ev <;> simp [collectStep, h]
      · split <;> simp
    rw [List.foldl_cons, ih _ o hset, hdes]

theorem foldl_collectStep_none (evs : List CollectEvent) :
    ∀ s, s.settled = none → s.destroyed = false →
      (evs.foldl collectStep s).settled = firstCollectOutcome s.chunks evs := by
  induction evs with
  | nil => intro s h _; simpa [firstCollectOutcome] using h
  | cons ev rest ih =>
    intro s h hd
    cases ev with
    | chunk c =>
        have : collectStep s (.chunk c) = { s with chunks := s.chunks ++ [c] } := by
          simp [collectStep, hd]
        rw [List.foldl_cons, this, firstCollectOutcome]
        exact ih _ h hd
    | endOfStream =>
        have : collectStep s .endOfStream =
            { s with settled := some (.ok (String.join s.chunks)) } := by
          simp [collectStep, h]
        rw [List.foldl_cons, this, firstCollectOutcome]
        exact foldl_collectStep_settled rest _ _ rfl
    | errorSig e =>
        have : collectStep s (.errorSig e) =
            { s with settled := some (.error e) } := by
          simp [collectStep, h]
        rw [List.foldl_cons, this, firstCollectOutcome]
        exact foldl_collectStep_settled rest _ _ rfl
    | timeoutFire =>
        have : collectStep s .timeoutFire =
            { s with settled := some (.ok (String.join s.chunks)), destroyed := true } := by
          simp [collectStep, h]
        rw [List.foldl_cons, this, firstCollectOutcome]
        exact foldl_collectStep_settled rest _ _ rfl

theorem collectStream_eq_firstOutcome (evs : List CollectEvent) :
    collectStream evs = firstCollectOutcome [] evs :=
  foldl_collectStep_none evs collectInit rfl rfl

theorem runCollect_destroyed_iff (evs : List CollectEvent) :
    (runCollect evs).destroyed = true ↔ evs.find? isSettling = some .timeoutFire := by
  suffices h : ∀ (l : List CollectEvent) (s : CollectState),
      s.settled = none → s.destroyed = false →
      ((l.foldl collectStep s).destroyed = true ↔ l.find? isSettling = some .timeoutFire) by
    exact h evs collectInit rfl rfl
  intro l
  induction l with
  | nil => intro s h hd; simp [hd]
  | cons ev rest ih =>
    intro s h hd
    cases ev with
    | chunk c =>
        have hstep : collectStep s (.chunk c) = { s with chunks := s.chunks ++ [c] } := by
          simp [collectStep, hd]
        rw [List.foldl_cons, hstep]
        rw [show (CollectEvent.chunk c :: rest).find? isSettling = rest.find? isSettling by
          simp [List.find?, isSettling]]
        exact ih _ h hd
    | endOfStream =>
        have hstep : collectStep s .endOfStream =
            { s with settled := some (.ok (String.join s.chunks)) } := by
          simp [collectStep, h]
        rw [List.foldl_cons, hstep,
          foldl_collectStep_destroyed_of_settled rest _ _ rfl]
        simp [List.find?, isSettling, hd]
    | errorSig e =>
        have hstep : collectStep s (.errorSig e) =
            { s with settled := some (.error e) } := by
          simp [collectStep, h]
        rw [List.foldl_cons, hstep,
          foldl_collectStep_destroyed_of_settled rest _ _ rfl]
        simp [List.find?, isSettling, hd]
    | timeoutFire =>
        have hstep : collectStep s .timeoutFire =
            { s with settled := some (.ok (String.join s.chunks)), destroyed := true } := by
          simp [collectStep, h]
        rw [List.foldl_cons, hstep,
          foldl_collectStep_destroyed_of_settled rest _ _ rfl]
        simp [List.find?, isSettling]

/-! ### Error formatting (src/src/utils/errors.ts) and the result envelope -/

/-- Thrown error values as discriminated by formatK8sError: an ApiException
from the API client (numeric code plus a body whose message field may be
absent, in which case the body is JSON-rendered), a plain Error object, or
any other thrown value coerced to a string. -/
inductive KErr where
  | apiException (code : Nat) (bodyMessage : Option String) (bodyJson : String)
  | errorObj (message : String)
  | other (s : String)
deriving DecidableEq, Repr

/-- formatK8sError (src/src/utils/errors.ts). -/
def formatK8sError : KErr → String
  | .apiException code (some msg) _ =>
      "Kubernetes API error (" ++ Nat.repr code ++ "): " ++ msg
  | .apiException code none bodyJson =>
      "Kubernetes API error (" ++ Nat.repr code ++ "): " ++ bodyJson
  | .errorObj m => m
  | .other s => s

/-- The envelope a tool handler returns to the dispatch layer: the textual
content and the error flag (absent in the source on success paths, which is
the falsy value modelled by false). -/
structure ToolResult where
  text : String
  isError : Bool
deriving DecidableEq, Repr

/-! ### Command Executor: execInPod (src/src/tools/exec.ts)

The source arms a timeout timer, pipes stdout and stderr into separate chunk
accumulators, and settles the promise from the first of three completion
events: the timer firing, the terminal-status callback, or rejection of the
underlying exec call. A settled flag guards against double resolution, and
clearTimeout is called when the callback or the rejection settles first.
-/

/-- The V1Status payload delivered by the terminal-status callback; only the
fields the handler reads are modelled. -/
structure V1Status where
  status : Option String
  message : Option String
deriving DecidableEq, Repr

/-- One observable event during an execInPod invocation. -/
inductive ExecEvent where
  | stdoutData (c : String)
  | stderrData (c : String)
  | statusCb (status : V1Status)
  | execReject (e : KErr)
  | timeoutFire
deriving DecidableEq, Repr

/-- The resolved value of execInPod. -/
structure ExecResult where
  stdout : String
  stderr : String
  status : V1Status
deriving DecidableEq, Repr

/-- The rejection reason of execInPod: either the timeout branch, which
constructs a fresh timeout error, or a pass-through of the underlying
rejection of the exec call. -/
inductive ExecError where
  | timedOut (timeoutMs : Nat)
  | remote (e : KErr)
deriving DecidableEq, Repr

/-- The message of the error constructed in the timeout branch. -/
def timeoutMessage (timeoutMs : Nat) : String :=
  "exec timed out after " ++ Nat.repr (timeoutMs / 1000) ++ "s"

/-- State of one execInPod invocation. -/
structure ExecState where
  stdoutChunks : List String
  stderrChunks : List String
  settled : Option (Except ExecError ExecResult)
  timerCleared : Bool
deriving Repr

def execInit : ExecState := ⟨[], [], none, false⟩

/-- One event step of execInPod, translated from the listener and callback
bodies. Data listeners always append (the source never detaches them); the
three completion events settle only when the settled guard is still clear;
the callback and the rejection additionally clear the timer. -/
def execStep (timeoutMs : Nat) (s : ExecState) (ev : ExecEvent) : ExecState :=
  match ev with
  | .stdoutData c => { s with stdoutChunks := s.stdoutChunks ++ [c] }
  | .stderrData c => { s with stderrChunks := s.stderrChunks ++ [c] }
  | .timeoutFire =>
      if s.timerCleared then s
      else
        match s.settled with
        | some _ => s
        | none => { s with settled := some (.error (.timedOut timeoutMs)) }
  | .statusCb st =>
      match s.settled with
      | some _ => s
      | none =>
          { s with
            settled := some (.ok ⟨String.join s.stdoutChunks, String.join s.stderrChunks, st⟩),
            timerCleared := true }
  | .execReject e =>
      match s.settled with
      | some _ => s
      | none => { s with settled := some (.error (.remote e)), timerCleared := true }

/-- Final state of execInPod after the given event trace. -/
def runExec (timeoutMs : Nat) (events : List ExecEvent) : ExecState :=
  events.foldl (execStep timeoutMs) execInit

/-- The settlement of the promise returned by execInPod. -/
def execInPod (timeoutMs : Nat) (events : List ExecEvent) :
    Option (Except ExecError ExecResult) :=
  (runExec timeoutMs events).settled

/-- Whether an event settles the execInPod promise. -/
def isExecSettling : ExecEvent → Bool
  | .stdoutData _ => false
  | .stderrData _ => false
  | _ => true

/-- Specification-level scan: outcome determined by the first completion
event, with the stdout and stderr chunks delivered strictly before it. -/
def firstExecOutcome (timeoutMs : Nat) (outAcc errAcc : List String) :
    List ExecEvent → Option (Except ExecError ExecResult)
  | [] => none
  | .stdoutData c :: rest => firstExecOutcome timeoutMs (outAcc ++ [c]) errAcc rest
  | .stderrData c :: rest => firstExecOutcome timeoutMs outAcc (errAcc ++ [c]) rest
  | .timeoutFire :: _ => some (.error (.timedOut timeoutMs))
  | .statusCb st :: _ => some (.ok ⟨String.join outAcc, String.join errAcc, st⟩)
  | .execReject e :: _ => some (.error (.remote e))

theorem execStep_settled_of_settled (tm : Nat) (s : ExecState) (ev : ExecEvent)
    (o : Except ExecError ExecResult) (h : s.settled = some o) :
    (execStep tm s ev).settled = some o := by
  cases ev <;> simp [execStep, h]

theorem foldl_execStep_settled (tm : Nat) (evs : List ExecEvent) :
    ∀ s o, s.settled = some o → (evs.foldl (execStep tm) s).settled = some o := by
  induction evs with
  | nil => intro s o h; simpa using h
  | cons ev rest ih =>
    intro s o h
    exact ih _ o (execStep_settled_of_settled tm s ev o h)

theorem foldl_execStep_none (tm : Nat) (evs : List ExecEvent) :
    ∀ s, s.settled = none → s.timerCleared = false →
      (evs.foldl (execStep tm) s).settled =
        firstExecOutcome tm s.stdoutChunks s.stderrChunks evs := by
  induction evs with
  | nil => intro s h _; simpa [firstExecOutcome] using h
  | cons ev rest ih =>
    intro s h ht
    cases ev with
    | stdoutData c =>
        have hstep : execStep tm s (.stdoutData c) =
            { s with stdoutChunks := s.stdoutChunks ++ [c] } := by
          simp [execStep]
        rw [List.foldl_cons, hstep, firstExecOutcome]
        exact ih _ h ht
    | stderrData c =>
        have hstep : execStep tm s (.stderrData c) =
            { s with stderrChunks := s.stderrChunks ++ [c] } := by
          simp [execStep]
        rw [List.foldl_cons, hstep, firstExecOutcome]
        exact ih _ h ht
    | timeoutFire =>
        have hstep : execStep tm s .timeoutFire =
            { s with settled := some (.error (.timedOut tm)) } := by
          simp [execStep, h, ht]
        rw [List.foldl_cons, hstep, firstExecOutcome]
        exact foldl_execStep_settled tm rest _ _ rfl
    | statusCb st =>
        have hstep : execStep tm s (.statusCb st) =
            { s with
              settled := some (.ok ⟨String.join s.stdoutChunks,
                String.join s.stderrChunks, st⟩),
              timerCleared := true } := by
          simp [execStep, h]
        rw [List.foldl_cons, hstep, firstExecOutcome]
        exact foldl_execStep_settled tm rest _ _ rfl
    | execReject e =>
        have hstep : execStep tm s (.execReject e) =
            { s with settled := some (.error (.remote e)), timerCleared := true } := by
          simp [execStep, h]
        rw [List.foldl_cons, hstep, firstExecOutcome]
        exact foldl_execStep_settled tm rest _ _ rfl

theorem execInPod_eq_firstOutcome (tm : Nat) (evs : List ExecEvent) :
    execInPod tm evs = firstExecOutcome tm [] [] evs :=
  foldl_execStep_none tm evs execInit rfl rfl

/-! ### Tool dispatch wrappers (src/src/tools/kubernetes.ts, src/src/tools/exec.ts)

Each registered handler wraps its body in try/catch and converts any thrown
fault into an error envelope through formatK8sError. The possibly-throwing
underlying interactions are explicit arguments of the embedded handlers.
-/

/-- Summary record built by the k8s_list_namespaces handler for each
namespace returned by the API. -/
structure NamespaceInfo where
  name : Option String
  status : Option String
  createdAt : Option String
deriving DecidableEq, Repr

def jsonOfStr (s : String) : String := "\"" ++ s ++ "\""

def jsonOfOptStr : Option String → String
  | none => "null"
  | some s => jsonOfStr s

/-- Compact stand-in for the JSON rendering of the namespace summaries on
the success path (the properties under verification constrain the error
path and the error flag, not the whitespace of the pretty-printed text). -/
def renderNamespaces (items : List NamespaceInfo) : String :=
  "[" ++ String.intercalate "," (items.map (fun info =>
    "\x7b\"name\":" ++ jsonOfOptStr info.name ++ ",\"status\":" ++ jsonOfOptStr info.status ++
      ",\"createdAt\":" ++ jsonOfOptStr info.createdAt ++ "\x7d")) ++ "]"

/-- The k8s_list_namespaces handler (src/src/tools/kubernetes.ts): the body
lists the namespaces through the API client and renders a summary; the
catch clause converts any thrown fault into an error envelope. The
possibly-throwing API interaction is the call argument. -/
def k8sListNamespacesTool (call : Except KErr (List NamespaceInfo)) : ToolResult :=
  match call with
  | .ok items => ⟨renderNamespaces items, false⟩
  | .error e => ⟨formatK8sError e, true⟩

/-- Validated arguments of the k8s_exec tool. -/
structure K8sExecArgs where
  podName : String
  ns : String
  containerName : Option String
  command : List String
  timeoutSeconds : Nat
deriving DecidableEq, Repr

/-- The environment a k8s_exec invocation runs against: whether obtaining
the kube config throws, and the events the exec channel delivers. -/
structure ExecEnv where
  kubeConfig : Except KErr Unit
  execEvents : List ExecEvent
deriving Repr

/-- Compact stand-in for the JSON rendering of the exec output object:
stdout and stderr always; exitStatus when the terminal status carries one;
message when the terminal status carries one. -/
def renderExecOutput (r : ExecResult) : String :=
  "\x7b\"stdout\":" ++ jsonOfStr r.stdout ++ ",\"stderr\":" ++ jsonOfStr r.stderr ++
    (match r.status.status with
     | some st => ",\"exitStatus\":" ++ jsonOfStr st
     | none => "") ++
    (match r.status.message with
     | some m => ",\"message\":" ++ jsonOfStr m
     | none => "") ++ "\x7d"

/-- The value caught by the handler catch clause when execInPod rejects: the
timeout branch rejected with a fresh Error carrying the timeout message; the
pass-through branch rethrew the underlying fault unchanged. -/
def execFaultToKErr : ExecError → KErr
  | .timedOut tm => .errorObj (timeoutMessage tm)
  | .remote e => e

/-- The k8s_exec handler body plus catch clause (src/src/tools/exec.ts lines
84 to 105): obtains the kube config, awaits execInPod with the timeout in
milliseconds, renders the output object on resolution, and converts any
fault into an error envelope. none models a promise that never settles (no
completion event in the trace), in which case the handler never returns. -/
def k8sExecTool (args : K8sExecArgs) (env : ExecEnv) : Option ToolResult :=
  match env.kubeConfig with
  | .error e => some ⟨formatK8sError e, true⟩
  | .ok _ =>
      match execInPod (args.timeoutSeconds * 1000) env.execEvents with
      | none => none
      | some (.ok r) => some ⟨renderExecOutput r, false⟩
      | some (.error err) => some ⟨formatK8sError (execFaultToKErr err), true⟩

/-! ### Argument validation for k8s_exec (src/src/tools/exec.ts lines 77 to 83)

The zod schema of the k8s_exec tool, modelled field by field over JSON-ish
raw values. A missing key is Option.none; zod defaults apply exactly there.
-/

/-- JSON-ish argument values as they arrive in the tool-call argument bag. -/
inductive JsonVal where
  | str (s : String)
  | num (q : Rat)
  | boolean (b : Bool)
  | arr (elems : List JsonVal)
  | null

/-- zod z.string() on a required field. -/
def parseRequiredString : Option JsonVal → Option String
  | some (.str s) => some s
  | _ => none

/-- zod z.string().default with the given default. -/
def parseStringDefault (d : String) : Option JsonVal → Option String
  | none => some d
  | some (.str s) => some s
  | _ => none

/-- zod z.string().optional(). -/
def parseOptionalString : Option JsonVal → Option (Option String)
  | none => some none
  | some (.str s) => some (some s)
  | _ => none

/-- zod z.array(z.string()).min(1). -/
def parseStringArrayMin1 : Option JsonVal → Option (List String)
  | some (.arr xs) =>
      match xs.mapM (fun j => match j with | .str s => some s | _ => none) with
      | some ss => if 1 ≤ ss.length then some ss else none
      | none => none
  | _ => none

/-- zod z.number().int().min(1).max(300).default(30): accepts an integral
numeric value between 1 and 300, defaulting to 30 when the key is absent. -/
def parseTimeoutSeconds : Option JsonVal → Option Nat
  | none => some 30
  | some (.num q) =>
      if q.den = 1 ∧ 1 ≤ q ∧ q ≤ 300 then some q.num.toNat else none
  | _ => none

/-- The raw argument bag of a k8s_exec tool call. The source field name of
ns is the Kubernetes namespace, renamed because namespace is reserved. -/
structure K8sExecRawArgs where
  podName : Option JsonVal
  ns : Option JsonVal
  containerName : Option JsonVal
  command : Option JsonVal
  timeoutSeconds : Option JsonVal

/-- The k8s_exec zod schema applied to a raw argument bag: every field must
parse for validation to succeed. -/
def validateK8sExecArgs (raw : K8sExecRawArgs) : Option K8sExecArgs := do
  let podName ← parseRequiredString raw.podName
  let ns ← parseStringDefault "default" raw.ns
  let containerName ← parseOptionalString raw.containerName
  let command ← parseStringArrayMin1 raw.command
  let timeoutSeconds ← parseTimeoutSeconds raw.timeoutSeconds
  pure ⟨podName, ns, containerName, command, timeoutSeconds⟩

/-- Modelled from the spec: the tool dispatch layer validates the argument
bag against the declared schema before invoking the handler and reports a
validation failure as an error envelope without making any remote call
(spec section 4.4); the schema itself is translated from
src/src/tools/exec.ts lines 77 to 83, and the handler from the same file. -/
def dispatchK8sExec (raw : K8sExecRawArgs) (env : ExecEnv) : Option ToolResult :=
  match validateK8sExecArgs raw with
  | none => some ⟨"Invalid arguments for tool k8s_exec", true⟩
  | some args => k8sExecTool args env

/-! ### Shell runner: runCommand (src/src/utils/shell.ts) -/

/-- Outcome of the execa subprocess invocation as observed by runCommand:
success with captured stdout and stderr, an ExecaError carrying the
captured output of a process that exited non-zero, or some other thrown
value. -/
inductive ExecaOutcome where
  | ok (stdout stderr : String)
  | execaFail (stdout stderr message : String)
  | otherFail (e : KErr)
deriving DecidableEq, Repr

structure ShellResult where
  stdout : String
  stderr : String
deriving DecidableEq, Repr

/-- Prefix of the error message runCommand constructs for a failed command. -/
def commandFailedPrefix (command : String) (args : List String) : String :=
  "Command \x27" ++ command ++ " " ++ String.intercalate " " args ++ "\x27 failed: "

/-- runCommand (src/src/utils/shell.ts): returns the captured output on
success; on an ExecaError rethrows a fresh error whose message appends, to
the command description, the captured stderr, or the captured stdout when
stderr is empty, or the ExecaError message when both are empty (the
JavaScript or-chain on strings treats only the empty string as falsy); any
other thrown value is rethrown unchanged. -/
def runCommand (command : String) (args : List String) (outcome : ExecaOutcome) :
    Except KErr ShellResult :=
  match outcome with
  | .ok out err => .ok ⟨out, err⟩
  | .execaFail out err msg =>
      .error (.errorObj (commandFailedPrefix command args ++
        (if err ≠ "" then err else if out ≠ "" then out else msg)))
  | .otherFail e => .error e

/-! ### Tunnel Session Registry: port-forward tools (src/src/tools/port-forward.ts)

The module-level sessions Map is modelled as an association list in
insertion order, with the JavaScript Map operations set, get and delete.
The net.Server handle owned by a session is an opaque numeric id.
-/

/-- One registered port-forward session. -/
structure PortForwardSession where
  serverId : Nat
  ns : String
  podName : String
  localPort : Nat
  remotePort : Nat
  createdAt : String
deriving DecidableEq, Repr

/-- The sessions registry in insertion order. -/
abbrev Registry := List (String × PortForwardSession)

/-- JavaScript Map.set: update the existing entry in place, else append. -/
def mapSet : Registry → String → PortForwardSession → Registry
  | [], k, v => [(k, v)]
  | p :: rest, k, v => if p.1 == k then (k, v) :: rest else p :: mapSet rest k v

/-- JavaScript Map.get. -/
def mapGet (m : Registry) (k : String) : Option PortForwardSession :=
  (m.find? (fun p => p.1 == k)).map Prod.snd

/-- JavaScript Map.delete. -/
def mapDelete (m : Registry) (k : String) : Registry :=
  m.filter (fun p => p.1 != k)

/-- makeSessionId (src/src/tools/port-forward.ts lines 128 to 130): the
template literal over namespace, pod name, remote port and assigned local
port. -/
def makeSessionId (ns podName : String) (remotePort localPort : Nat) : String :=
  ns ++ "/" ++ podName ++ ":" ++ Nat.repr remotePort ++ "@" ++ Nat.repr localPort

/-- Arguments of a k8s_port_forward_start call after schema validation; a
localPort of 0 is the auto-assign sentinel. -/
structure StartArgs where
  podName : String
  ns : String
  remotePort : Nat
  localPort : Nat
deriving DecidableEq, Repr

/-- The environment a start call runs against: whether binding the listener
on the chosen port succeeds and with which error it rejects otherwise, the
ephemeral port getFreePort resolves with, the handle of the created
net.Server, the current timestamp, and whether tunnel negotiation to the
remote target would succeed. The source consults remoteReachable only
inside the per-connection callback, never during start. -/
structure StartEnv where
  bindOk : Bool
  bindErr : KErr
  freePort : Nat
  serverId : Nat
  now : String
  remoteReachable : Bool
deriving DecidableEq, Repr

/-- Compact stand-in for the JSON rendering of the start success payload. -/
def renderStartResult (sessionId : String) (localPort remotePort : Nat)
    (podName ns : String) : String :=
  "\x7b\"sessionId\":" ++ jsonOfStr sessionId ++
    ",\"localPort\":" ++ Nat.repr localPort ++
    ",\"remotePort\":" ++ Nat.repr remotePort ++
    ",\"podName\":" ++ jsonOfStr podName ++
    ",\"namespace\":" ++ jsonOfStr ns ++
    ",\"address\":" ++ jsonOfStr ("127.0.0.1:" ++ Nat.repr localPort) ++ "\x7d"

/-- The k8s_port_forward_start handler (src/src/tools/port-forward.ts lines
133 to 189): chooses the assigned port, creates the listener, awaits the
bind, then derives the session id, registers the entry and reports success;
a thrown bind failure is caught and reported as an error envelope with the
registry untouched. Returns the updated registry and the envelope. -/
def k8sPortForwardStart (env : StartEnv) (sessions : Registry) (args : StartArgs) :
    Registry × ToolResult :=
  let assignedPort := if args.localPort = 0 then env.freePort else args.localPort
  if env.bindOk then
    let sessionId := makeSessionId args.ns args.podName args.remotePort assignedPort
    let sessions' := mapSet sessions sessionId
      ⟨env.serverId, args.ns, args.podName, assignedPort, args.remotePort, env.now⟩
    (sessions',
      ⟨renderStartResult sessionId assignedPort args.remotePort args.podName args.ns, false⟩)
  else
    (sessions, ⟨formatK8sError env.bindErr, true⟩)

/-- The k8s_port_forward_stop handler (src/src/tools/port-forward.ts lines
191 to 213): a registry miss is reported as an error envelope with the
registry untouched; a hit closes the listener, removes the entry and only
then reports success. Returns the updated registry, the handles of the
listeners closed, and the envelope. -/
def k8sPortForwardStop (sessions : Registry) (sessionId : String) :
    Registry × List Nat × ToolResult :=
  match mapGet sessions sessionId with
  | none =>
      (sessions, [],
        ⟨"No active port-forward session found with ID: " ++ sessionId, true⟩)
  | some session =>
      (mapDelete sessions sessionId, [session.serverId],
        ⟨"Port-forward session \x27" ++ sessionId ++ "\x27 stopped successfully.", false⟩)

/-- One summary in the k8s_port_forward_list output. -/
structure SessionSummary where
  sessionId : String
  ns : String
  podName : String
  localPort : Nat
  remotePort : Nat
  address : String
  createdAt : String
deriving DecidableEq, Repr

/-- The k8s_port_forward_list handler (src/src/tools/port-forward.ts lines
215 to 231): a total snapshot of the registry in insertion order. -/
def k8sPortForwardList (sessions : Registry) : List SessionSummary :=
  sessions.map (fun p =>
    ⟨p.1, p.2.ns, p.2.podName, p.2.localPort, p.2.remotePort,
      "127.0.0.1:" ++ Nat.repr p.2.localPort, p.2.createdAt⟩)

theorem sessionIds_list (sessions : Registry) :
    (k8sPortForwardList sessions).map SessionSummary.sessionId =
      sessions.map Prod.fst := by
  simp [k8sPortForwardList]

theorem mem_keys_mapSet_self (m : Registry) (k : String) (v : PortForwardSession) :
    k ∈ (mapSet m k v).map Prod.fst := by
  induction m with
  | nil => simp [mapSet]
  | cons p rest ih =>
    by_cases h : p.1 == k
    · simp [mapSet, h]
    · simp only [mapSet, h]
      simp only [Bool.false_eq_true, if_false, List.map_cons, List.mem_cons]
      exact Or.inr ih

theorem mem_keys_mapSet_of_mem (m : Registry) (k a : String) (v : PortForwardSession)
    (h : a ∈ m.map Prod.fst) : a ∈ (mapSet m k v).map Prod.fst := by
  induction m with
  | nil => cases h
  | cons p rest ih =>
    by_cases hk : p.1 == k
    · have hpk : p.1 = k := by simpa using hk
      simp only [List.map_cons, List.mem_cons] at h
      rcases h with h | h
      · simp [mapSet, hk, h ▸ hpk]
      · simp only [mapSet, hk, if_true, List.map_cons, List.mem_cons]
        exact Or.inr h
    · simp only [List.map_cons, List.mem_cons] at h
      simp only [mapSet, hk]
      simp only [Bool.false_eq_true, if_false, List.map_cons, List.mem_cons]
      rcases h with h | h
      · exact Or.inl h
      · exact Or.inr (ih h)

theorem not_mem_keys_mapDelete (m : Registry) (k : String) :
    k ∉ (mapDelete m k).map Prod.fst := by
  intro hmem
  rcases List.mem_map.mp hmem with ⟨p, hp, hval⟩
  have hne := (List.mem_filter.mp hp).2
  rw [hval] at hne
  simp at hne

theorem mapGet_mapDelete (m : Registry) (k : String) :
    mapGet (mapDelete m k) k = none := by
  have h : (mapDelete m k).find? (fun p => p.1 == k) = none := by
    apply List.find?_eq_none.mpr
    intro p hp
    have hne := (List.mem_filter.mp hp).2
    simpa using hne
  simp [mapGet, h]

theorem makeSessionId_inj_localPort (ns podName : String) (remotePort : Nat)
    (lp lp' : Nat)
    (h : makeSessionId ns podName remotePort lp =
      makeSessionId ns podName remotePort lp') : lp = lp' := by
  have hd := congrArg String.data h
  simp only [makeSessionId, String.data_append, List.append_assoc,
    List.append_cancel_left_eq] at hd
  exact natRepr_data_inj hd

theorem firstCollectOutcome_error (e : String) :
    ∀ (pre : List CollectEvent) (acc : List String) (rest : List CollectEvent),
      (∀ ev ∈ pre, isSettling ev = false) →
      firstCollectOutcome acc (pre ++ CollectEvent.errorSig e :: rest) =
        some (Except.error e) := by
  intro pre
  induction pre with
  | nil => intro acc rest _; rfl
  | cons ev pre ih =>
    intro acc rest h
    have hev := h ev (List.mem_cons_self ev pre)
    cases ev with
    | chunk c =>
        rw [List.cons_append, firstCollectOutcome]
        exact ih _ _ (fun x hx => h x (List.mem_cons_of_mem _ hx))
    | endOfStream => simp [isSettling] at hev
    | errorSig e => simp [isSettling] at hev
    | timeoutFire => simp [isSettling] at hev

theorem firstExecOutcome_timeout (tm : Nat) :
    ∀ (pre : List ExecEvent) (outAcc errAcc : List String) (rest : List ExecEvent),
      (∀ ev ∈ pre, isExecSettling ev = false) →
      firstExecOutcome tm outAcc errAcc (pre ++ ExecEvent.timeoutFire :: rest) =
        some (.error (.timedOut tm)) := by
  intro pre
  induction pre with
  | nil => intro _ _ _ _; rfl
  | cons ev pre ih =>
    intro outAcc errAcc rest h
    have hev := h ev (List.mem_cons_self ev pre)
    cases ev with
    | stdoutData c =>
        rw [List.cons_append, firstExecOutcome]
        exact ih _ _ _ (fun x hx => h x (List.mem_cons_of_mem _ hx))
    | stderrData c =>
        rw [List.cons_append, firstExecOutcome]
        exact ih _ _ _ (fun x hx => h x (List.mem_cons_of_mem _ hx))
    | statusCb st => simp [isExecSettling] at hev
    | execReject e => simp [isExecSettling] at hev
    | timeoutFire => simp [isExecSettling] at hev

theorem parseTimeoutSeconds_bounds (o : Option JsonVal) (t : Nat)
    (h : parseTimeoutSeconds o = some t) :
    1 ≤ t ∧ t ≤ 300 ∧ (o = none → t = 30) := by
  match o with
  | none =>
      simp [parseTimeoutSeconds] at h
      omega
  | some (.num q) =>
      by_cases hc : q.den = 1 ∧ 1 ≤ q ∧ q ≤ 300
      · simp [parseTimeoutSeconds, hc] at h
        have hq : (q.num : Rat) = q := Rat.coe_int_num_of_den_eq_one hc.1
        have h1 : (1 : Int) ≤ q.num := by
          have := hc.2.1
          rw [← hq] at this
          exact_mod_cast this
        have h2 : q.num ≤ 300 := by
          have := hc.2.2
          rw [← hq] at this
          exact_mod_cast this
        refine ⟨by omega, by omega, fun hn => by cases hn⟩
      · simp [parseTimeoutSeconds, hc] at h
  | some (.str s) => simp [parseTimeoutSeconds] at h
  | some (.boolean b) => simp [parseTimeoutSeconds] at h
  | some (.arr xs) => simp [parseTimeoutSeconds] at h
  | some .null => simp [parseTimeoutSeconds] at h

theorem validateK8sExecArgs_none_of_timeout (raw : K8sExecRawArgs)
    (h : parseTimeoutSeconds raw.timeoutSeconds = none) :
    validateK8sExecArgs raw = none := by
  unfold validateK8sExecArgs
  cases hp : parseRequiredString raw.podName
  · rfl
  cases hn : parseStringDefault "default" raw.ns
  · rfl
  cases hc : parseOptionalString raw.containerName
  · rfl
  cases hcmd : parseStringArrayMin1 raw.command
  · rfl
  simp [Option.bind, h]

theorem validateK8sExecArgs_none_of_command (raw : K8sExecRawArgs)
    (h : parseStringArrayMin1 raw.command = none) :
    validateK8sExecArgs raw = none := by
  unfold validateK8sExecArgs
  cases hp : parseRequiredString raw.podName
  · rfl
  cases hn : parseStringDefault "default" raw.ns
  · rfl
  cases hc : parseOptionalString raw.containerName
  · rfl
  simp [Option.bind, h]

theorem validateK8sExecArgs_some_inv (raw : K8sExecRawArgs) (a : K8sExecArgs)
    (h : validateK8sExecArgs raw = some a) :
    parseStringArrayMin1 raw.command = some a.command ∧
    parseTimeoutSeconds raw.timeoutSeconds = some a.timeoutSeconds := by
  unfold validateK8sExecArgs at h
  rcases hp : parseRequiredString raw.podName with _ | pn <;> rw [hp] at h
  · simp at h
  rcases hn : parseStringDefault "default" raw.ns with _ | nsv <;> rw [hn] at h
  · simp at h
  rcases hc : parseOptionalString raw.containerName with _ | cn <;> rw [hc] at h
  · simp at h
  rcases hcmd : parseStringArrayMin1 raw.command with _ | cmd <;> rw [hcmd] at h
  · simp at h
  rcases hts : parseTimeoutSeconds raw.timeoutSeconds with _ | ts <;> rw [hts] at h
  · simp at h
  simp only [Option.some_bind, Option.pure_def] at h
  obtain rfl := Option.some_inj.mp h
  exact ⟨rfl, rfl⟩

theorem parseStringArrayMin1_ne_nil (o : Option JsonVal) (l : List String)
    (h : parseStringArrayMin1 o = some l) : l ≠ [] := by
  match o with
  | none => simp [parseStringArrayMin1] at h
  | some (.str s) => simp [parseStringArrayMin1] at h
  | some (.num q) => simp [parseStringArrayMin1] at h
  | some (.boolean b) => simp [parseStringArrayMin1] at h
  | some .null => simp [parseStringArrayMin1] at h
  | some (.arr xs) =>
      simp only [parseStringArrayMin1] at h
      rcases hm : xs.mapM
          (fun j => match j with | .str s => some s | _ => none) with _ | ss <;>
        rw [hm] at h <;> dsimp only at h
      · cases h
      · by_cases hl : 1 ≤ ss.length
        · rw [if_pos hl] at h
          obtain rfl := Option.some_inj.mp h
          intro hnil
          rw [hnil] at hl
          simp at hl
        · rw [if_neg hl] at h
          cases h

/-! ### Claim theorems -/

/-- Claim C1: for every invocation of execInPod and every ordering of the
three completion events (timeout firing, terminal-status callback,
rejection of the underlying exec call), the promise is settled exactly
once: the settlement equals the outcome of the first completion event of
the trace, computed from the output delivered before it, and once settled
no later event changes the recorded settlement. -/
theorem execInPod_settles_once :
    (∀ (timeoutMs : Nat) (events : List ExecEvent),
        execInPod timeoutMs events = firstExecOutcome timeoutMs [] [] events) ∧
    (∀ (timeoutMs : Nat) (s : ExecState) (ev : ExecEvent)
        (o : Except ExecError ExecResult), s.settled = some o →
        (execStep timeoutMs s ev).settled = some o) :=
  ⟨execInPod_eq_firstOutcome, execStep_settled_of_settled⟩

/-- Witness for execInPod_settles_once at a concrete settled state hit by a
late terminal-status callback: the first settlement is preserved. -/
theorem execInPod_settles_once_witness :
    (execStep 1000
      ⟨[], [], some (Except.error (ExecError.timedOut 1000)), false⟩
      (ExecEvent.statusCb ⟨some "Success", none⟩)).settled =
      some (Except.error (ExecError.timedOut 1000)) :=
  execInPod_settles_once.2 1000 _ _ _ rfl

/-- Counterexample to claim C2 as stated: the value collectStream resolves
with carries no truncation indicator; on these two concrete traces, one cut
off by the deadline and one ended naturally, the resolved values are
identical, so no reading of the resolved value can report truncation true
for the first and truncation false for the second. -/
theorem collectStream_truncation_counterexample :
    ¬ ∃ truncationOf : Option (Except String String) → Bool,
        truncationOf (collectStream
          [CollectEvent.chunk "ab", CollectEvent.timeoutFire]) = true ∧
        truncationOf (collectStream
          [CollectEvent.chunk "ab", CollectEvent.endOfStream]) = false := by
  rintro ⟨f, h1, h2⟩
  rw [show collectStream [CollectEvent.chunk "ab", CollectEvent.timeoutFire] =
      collectStream [CollectEvent.chunk "ab", CollectEvent.endOfStream] from rfl,
    h2] at h1
  cases h1

/-- Claim C2 (amended): whichever of the deadline and the natural end of
the source stream occurs first determines the settlement of collectStream,
whose text is exactly the data delivered before that first completion
event, so no data received after the deadline is included; the deadline
path is exactly the path that destroys the source stream; but the resolved
value carries no truncation flag distinguishing the two resolution paths
(see the counterexample), both resolve with the bare accumulated text. -/
theorem collectStream_first_event_determines :
    ∀ events : List CollectEvent,
      collectStream events = firstCollectOutcome [] events ∧
      ((runCollect events).destroyed = true ↔
        events.find? isSettling = some CollectEvent.timeoutFire) :=
  fun events => ⟨collectStream_eq_firstOutcome events, runCollect_destroyed_iff events⟩

/-- Claim C3: stopping a registered session closes its listener, removes
the registry entry and reports success, after which the id no longer
appears in the list snapshot and a second stop of the same id is reported
as an error; stopping an unknown id is reported as an error rather than a
no-op success and leaves the registry unchanged. -/
theorem portForwardStop_contract :
    (∀ (sessions : Registry) (sid : String) (session : PortForwardSession),
        mapGet sessions sid = some session →
        (k8sPortForwardStop sessions sid).2.2.isError = false ∧
        (k8sPortForwardStop sessions sid).2.1 = [session.serverId] ∧
        (∀ summ ∈ k8sPortForwardList (k8sPortForwardStop sessions sid).1,
            summ.sessionId ≠ sid) ∧
        (k8sPortForwardStop (k8sPortForwardStop sessions sid).1 sid).2.2.isError = true) ∧
    (∀ (sessions : Registry) (sid : String), mapGet sessions sid = none →
        (k8sPortForwardStop sessions sid).2.2.isError = true ∧
        (k8sPortForwardStop sessions sid).1 = sessions) := by
  constructor
  · intro sessions sid session h
    refine ⟨by simp [k8sPortForwardStop, h], by simp [k8sPortForwardStop, h], ?_, ?_⟩
    · intro summ hmem heq
      have h1 : (k8sPortForwardStop sessions sid).1 = mapDelete sessions sid := by
        simp [k8sPortForwardStop, h]
      rw [h1] at hmem
      apply not_mem_keys_mapDelete sessions sid
      have hmen := List.mem_map_of_mem SessionSummary.sessionId hmem
      rw [sessionIds_list, heq] at hmen
      exact hmen
    · have h1 : (k8sPortForwardStop sessions sid).1 = mapDelete sessions sid := by
        simp [k8sPortForwardStop, h]
      rw [h1]
      simp [k8sPortForwardStop, mapGet_mapDelete]
  · intro sessions sid h
    exact ⟨by simp [k8sPortForwardStop, h], by simp [k8sPortForwardStop, h]⟩

/-- Witness for portForwardStop_contract on a concrete one-entry registry:
stop succeeds, closes listener 7, and a second stop is an error. -/
theorem portForwardStop_contract_witness :
    (k8sPortForwardStop [("default/web:80@8080",
        ⟨7, "default", "web", 8080, 80, "t0"⟩)] "default/web:80@8080").2.2.isError = false ∧
    (k8sPortForwardStop [("default/web:80@8080",
        ⟨7, "default", "web", 8080, 80, "t0"⟩)] "default/web:80@8080").2.1 = [7] ∧
    (k8sPortForwardStop (k8sPortForwardStop [("default/web:80@8080",
        ⟨7, "default", "web", 8080, 80, "t0"⟩)] "default/web:80@8080").1
      "default/web:80@8080").2.2.isError = true :=
  have h := portForwardStop_contract.1
    [("default/web:80@8080", ⟨7, "default", "web", 8080, 80, "t0"⟩)]
    "default/web:80@8080" ⟨7, "default", "web", 8080, 80, "t0"⟩ rfl
  ⟨h.1, h.2.1, h.2.2.2⟩

/-- Counterexample to claim C4 as stated: with a bindable local port but an
unreachable remote target, start succeeds and registers an entry instead of
failing with a RemoteUnreachable condition, because the source attempts
tunnel negotiation only per accepted connection, never during start. -/
theorem portForwardStart_remoteUnreachable_counterexample :
    (StartEnv.mk true (KErr.other "") 40000 7 "t0" false).remoteReachable = false ∧
    (k8sPortForwardStart (StartEnv.mk true (KErr.other "") 40000 7 "t0" false) []
        ⟨"web", "default", 80, 8080⟩).2.isError = false ∧
    (k8sPortForwardStart (StartEnv.mk true (KErr.other "") 40000 7 "t0" false) []
        ⟨"web", "default", 80, 8080⟩).1.length = 1 :=
  ⟨rfl, rfl, rfl⟩

/-- Claim C4 (amended): start fails with the bind error and registers no
entry when the local port cannot be bound, and registers exactly the new
entry and reports success when the bind succeeds; a registry entry exists
only after a successful bind; there is no RemoteUnreachable failure at
start time (see the counterexample): the outcome of start is independent
of whether the remote target is reachable, because tunnel negotiation
happens per accepted connection. -/
theorem portForwardStart_contract :
    ∀ (env : StartEnv) (sessions : Registry) (args : StartArgs),
      (env.bindOk = false →
        (k8sPortForwardStart env sessions args).1 = sessions ∧
        (k8sPortForwardStart env sessions args).2 =
          ⟨formatK8sError env.bindErr, true⟩) ∧
      (env.bindOk = true →
        (k8sPortForwardStart env sessions args).2.isError = false ∧
        (k8sPortForwardStart env sessions args).1 =
          mapSet sessions
            (makeSessionId args.ns args.podName args.remotePort
              (if args.localPort = 0 then env.freePort else args.localPort))
            ⟨env.serverId, args.ns, args.podName,
              (if args.localPort = 0 then env.freePort else args.localPort),
              args.remotePort, env.now⟩) ∧
      (∀ r' : Bool,
        k8sPortForwardStart { env with remoteReachable := r' } sessions args =
          k8sPortForwardStart env sessions args) := by
  intro env sessions args
  refine ⟨fun h => ?_, fun h => ?_, fun r' => ?_⟩
  · constructor <;> simp [k8sPortForwardStart, h]
  · constructor <;> simp [k8sPortForwardStart, h]
  · cases env
    rfl

/-- Witness for portForwardStart_contract at a concrete failed bind: the
registry is untouched and the bind error is surfaced. -/
theorem portForwardStart_contract_witness :
    (k8sPortForwardStart
        ⟨false, KErr.errorObj "listen EADDRINUSE", 0, 7, "t0", true⟩ []
        ⟨"web", "default", 80, 8080⟩).1 = [] ∧
    (k8sPortForwardStart
        ⟨false, KErr.errorObj "listen EADDRINUSE", 0, 7, "t0", true⟩ []
        ⟨"web", "default", 80, 8080⟩).2 = ⟨"listen EADDRINUSE", true⟩ :=
  have h := (portForwardStart_contract
    ⟨false, KErr.errorObj "listen EADDRINUSE", 0, 7, "t0", true⟩ []
    ⟨"web", "default", 80, 8080⟩).1 rfl
  ⟨h.1, h.2⟩

/-- Claim C5: the session id is the deterministic rendering of namespace,
pod, remote port and assigned local port, so with the first three fixed,
distinct assigned local ports give distinct ids; in particular two
auto-port start calls against the same target that bind two different
ephemeral ports register two distinct session ids, both present in a
subsequent list snapshot. -/
theorem sessionId_distinct :
    (∀ (ns podName : String) (remotePort lp lp' : Nat), lp ≠ lp' →
        makeSessionId ns podName remotePort lp ≠
          makeSessionId ns podName remotePort lp') ∧
    (∀ (env1 env2 : StartEnv) (sessions : Registry) (args : StartArgs),
        args.localPort = 0 → env1.bindOk = true → env2.bindOk = true →
        env1.freePort ≠ env2.freePort →
        makeSessionId args.ns args.podName args.remotePort env1.freePort ≠
          makeSessionId args.ns args.podName args.remotePort env2.freePort ∧
        makeSessionId args.ns args.podName args.remotePort env1.freePort ∈
          (k8sPortForwardList (k8sPortForwardStart env2
            (k8sPortForwardStart env1 sessions args).1 args).1).map
            SessionSummary.sessionId ∧
        makeSessionId args.ns args.podName args.remotePort env2.freePort ∈
          (k8sPortForwardList (k8sPortForwardStart env2
            (k8sPortForwardStart env1 sessions args).1 args).1).map
            SessionSummary.sessionId) := by
  constructor
  · intro ns podName remotePort lp lp' hne heq
    exact hne (makeSessionId_inj_localPort ns podName remotePort lp lp' heq)
  · intro env1 env2 sessions args h0 hb1 hb2 hfp
    have hs1 : (k8sPortForwardStart env1 sessions args).1 =
        mapSet sessions (makeSessionId args.ns args.podName args.remotePort env1.freePort)
          ⟨env1.serverId, args.ns, args.podName, env1.freePort,
            args.remotePort, env1.now⟩ := by
      simp [k8sPortForwardStart, hb1, h0]
    have hs2 : (k8sPortForwardStart env2 (k8sPortForwardStart env1 sessions args).1 args).1 =
        mapSet (k8sPortForwardStart env1 sessions args).1
          (makeSessionId args.ns args.podName args.remotePort env2.freePort)
          ⟨env2.serverId, args.ns, args.podName, env2.freePort,
            args.remotePort, env2.now⟩ := by
      simp [k8sPortForwardStart, hb2, h0]
    refine ⟨fun heq => hfp (makeSessionId_inj_localPort _ _ _ _ _ heq), ?_, ?_⟩
    · rw [sessionIds_list, hs2, hs1]
      exact mem_keys_mapSet_of_mem _ _ _ _ (mem_keys_mapSet_self _ _ _)
    · rw [sessionIds_list, hs2]
      exact mem_keys_mapSet_self _ _ _

/-- Witness for sessionId_distinct at concrete ports 8080 and 9090. -/
theorem sessionId_distinct_witness :
    makeSessionId "default" "web" 80 8080 ≠ makeSessionId "default" "web" 80 9090 :=
  sessionId_distinct.1 "default" "web" 80 8080 9090 (by decide)

/-- Claim C6: when no completion event (terminal status or rejection)
occurs before the timer fires, the timer settles execInPod with the
timeout error, the surfaced envelope carries the dedicated timeout
message, and the timeout condition is distinguishable from a remote
rejection and is not a normal result. -/
theorem exec_timeout_distinguishable :
    ∀ (args : K8sExecArgs) (env : ExecEnv) (pre rest : List ExecEvent),
      env.kubeConfig = Except.ok () →
      env.execEvents = pre ++ ExecEvent.timeoutFire :: rest →
      (∀ ev ∈ pre, isExecSettling ev = false) →
      execInPod (args.timeoutSeconds * 1000) env.execEvents =
        some (Except.error (ExecError.timedOut (args.timeoutSeconds * 1000))) ∧
      k8sExecTool args env =
        some ⟨timeoutMessage (args.timeoutSeconds * 1000), true⟩ ∧
      (∀ e, ExecError.timedOut (args.timeoutSeconds * 1000) ≠ ExecError.remote e) ∧
      (∀ r : ExecResult,
        (Except.error (ExecError.timedOut (args.timeoutSeconds * 1000)) :
          Except ExecError ExecResult) ≠ Except.ok r) := by
  intro args env pre rest hkc hevs hpre
  have hexec : execInPod (args.timeoutSeconds * 1000) env.execEvents =
      some (Except.error (ExecError.timedOut (args.timeoutSeconds * 1000))) := by
    rw [hevs, execInPod_eq_firstOutcome]
    exact firstExecOutcome_timeout _ pre [] [] rest hpre
  refine ⟨hexec, ?_, ?_, ?_⟩
  · simp [k8sExecTool, hkc, hexec, execFaultToKErr, formatK8sError]
  · intro e h
    cases h
  · intro r h
    cases h

/-- Witness for exec_timeout_distinguishable at a one-second deadline and a
trace whose only completion event is the timer firing. -/
theorem exec_timeout_distinguishable_witness :
    k8sExecTool ⟨"web", "default", none, ["sleep", "10"], 1⟩
      ⟨Except.ok (), [ExecEvent.stdoutData "x", ExecEvent.timeoutFire]⟩ =
      some ⟨timeoutMessage 1000, true⟩ :=
  (exec_timeout_distinguishable ⟨"web", "default", none, ["sleep", "10"], 1⟩
    ⟨Except.ok (), [ExecEvent.stdoutData "x", ExecEvent.timeoutFire]⟩
    [ExecEvent.stdoutData "x"] [] rfl rfl (by decide)).2.1

/-- Claim C7: an error signal from the source stream that precedes both the
natural end and the deadline rejects the whole collection with that error;
the settlement is the bare error, carrying none of the accumulated bytes,
unlike the timeout path. -/
theorem collect_error_rejects :
    ∀ (pre : List CollectEvent) (e : String) (rest : List CollectEvent),
      (∀ ev ∈ pre, isSettling ev = false) →
      collectStream (pre ++ CollectEvent.errorSig e :: rest) =
        some (Except.error e) := by
  intro pre e rest hpre
  rw [collectStream_eq_firstOutcome]
  exact firstCollectOutcome_error e pre [] rest hpre

/-- Witness for collect_error_rejects: a chunk followed by a stream error;
the settlement is the rejection, with no partial text. -/
theorem collect_error_rejects_witness :
    collectStream [CollectEvent.chunk "partial", CollectEvent.errorSig "boom",
      CollectEvent.timeoutFire] = some (Except.error "boom") :=
  collect_error_rejects [CollectEvent.chunk "partial"] "boom"
    [CollectEvent.timeoutFire] (by decide)

/-- Claim C8: every fault raised by the underlying interactions of the
embedded tool handlers is caught and converted into an error envelope by
the handler wrapper: the list-namespaces dispatch maps any thrown fault to
the formatted error envelope, and the exec dispatch does so both for a
fault thrown while obtaining the client configuration and for every
rejection of the exec call; a fault never produces anything but an
envelope. -/
theorem dispatch_catches_faults :
    (∀ e : KErr, k8sListNamespacesTool (Except.error e) = ⟨formatK8sError e, true⟩) ∧
    (∀ (args : K8sExecArgs) (env : ExecEnv) (e : KErr),
        env.kubeConfig = Except.error e →
        k8sExecTool args env = some ⟨formatK8sError e, true⟩) ∧
    (∀ (args : K8sExecArgs) (env : ExecEnv) (err : ExecError),
        env.kubeConfig = Except.ok () →
        execInPod (args.timeoutSeconds * 1000) env.execEvents =
          some (Except.error err) →
        k8sExecTool args env = some ⟨formatK8sError (execFaultToKErr err), true⟩) := by
  refine ⟨fun e => rfl, ?_, ?_⟩
  · intro args env e h
    simp [k8sExecTool, h]
  · intro args env err hkc hexec
    simp [k8sExecTool, hkc, hexec]

/-- Witness for dispatch_catches_faults: a 403 ApiException thrown while
obtaining the client configuration yields the formatted error envelope. -/
theorem dispatch_catches_faults_witness :
    k8sExecTool ⟨"web", "default", none, ["ls"], 30⟩
      ⟨Except.error (KErr.apiException 403 (some "forbidden") "body"), []⟩ =
      some ⟨formatK8sError (KErr.apiException 403 (some "forbidden") "body"), true⟩ :=
  dispatch_catches_faults.2.1 ⟨"web", "default", none, ["ls"], 30⟩
    ⟨Except.error (KErr.apiException 403 (some "forbidden") "body"), []⟩
    (KErr.apiException 403 (some "forbidden") "body") rfl

/-- Claim C9: an external process that exits non-zero makes runCommand
throw an error whose message carries the captured stderr, and the captured
stdout when stderr is empty. -/
theorem runCommand_nonzero_exit :
    ∀ (command : String) (args : List String) (out err msg : String),
      (err ≠ "" →
        runCommand command args (.execaFail out err msg) =
          .error (.errorObj (commandFailedPrefix command args ++ err))) ∧
      (err = "" → out ≠ "" →
        runCommand command args (.execaFail out err msg) =
          .error (.errorObj (commandFailedPrefix command args ++ out))) := by
  intro command args out err msg
  constructor
  · intro h
    simp [runCommand, h]
  · intro h ho
    simp [runCommand, h, ho]

/-- Witness for runCommand_nonzero_exit at a concrete failed kubectl
invocation whose stderr is non-empty. -/
theorem runCommand_nonzero_exit_witness :
    runCommand "kubectl" ["get", "pods"]
      (ExecaOutcome.execaFail "" "forbidden" "exit 1") =
      Except.error (KErr.errorObj
        (commandFailedPrefix "kubectl" ["get", "pods"] ++ "forbidden")) :=
  (runCommand_nonzero_exit "kubectl" ["get", "pods"] "" "forbidden" "exit 1").1
    (by decide)

/-- Claim C10: the k8s_exec schema rejects, before any remote interaction,
a timeoutSeconds that is not an integral number in the range 1 to 300 and
a command that is not a non-empty array of strings; an absent
timeoutSeconds defaults to 30; every validated invocation carries a
timeout of at most 300 seconds, hence is armed with a deadline of at most
300000 milliseconds. -/
theorem k8sExec_validation :
    (∀ (raw : K8sExecRawArgs) (q : Rat),
        raw.timeoutSeconds = some (JsonVal.num q) →
        (q.den ≠ 1 ∨ q < 1 ∨ 300 < q) →
        validateK8sExecArgs raw = none) ∧
    (∀ raw : K8sExecRawArgs, raw.command = some (JsonVal.arr []) →
        validateK8sExecArgs raw = none) ∧
    (∀ (raw : K8sExecRawArgs) (s : String), raw.command = some (JsonVal.str s) →
        validateK8sExecArgs raw = none) ∧
    (∀ (raw : K8sExecRawArgs) (a : K8sExecArgs),
        validateK8sExecArgs raw = some a →
        1 ≤ a.timeoutSeconds ∧ a.timeoutSeconds ≤ 300 ∧
        (raw.timeoutSeconds = none → a.timeoutSeconds = 30) ∧
        a.command ≠ [] ∧ a.timeoutSeconds * 1000 ≤ 300000) ∧
    (∀ (raw : K8sExecRawArgs) (env : ExecEnv),
        validateK8sExecArgs raw = none →
        dispatchK8sExec raw env =
          some ⟨"Invalid arguments for tool k8s_exec", true⟩) := by
  refine ⟨?_, ?_, ?_, ?_, ?_⟩
  · intro raw q hts hbad
    apply validateK8sExecArgs_none_of_timeout
    rw [hts]
    have hcond : ¬(q.den = 1 ∧ 1 ≤ q ∧ q ≤ 300) := by
      rcases hbad with h | h | h
      · exact fun hc => h hc.1
      · exact fun hc => absurd hc.2.1 (not_le.mpr h)
      · exact fun hc => absurd hc.2.2 (not_le.mpr h)
    simp [parseTimeoutSeconds, hcond]
  · intro raw hcmd
    apply validateK8sExecArgs_none_of_command
    rw [hcmd]
    rfl
  · intro raw s hcmd
    apply validateK8sExecArgs_none_of_command
    rw [hcmd]
    rfl
  · intro raw a h
    obtain ⟨hcmd, hts⟩ := validateK8sExecArgs_some_inv raw a h
    obtain ⟨h1, h2, h3⟩ :=
      parseTimeoutSeconds_bounds raw.timeoutSeconds a.timeoutSeconds hts
    exact ⟨h1, h2, h3, parseStringArrayMin1_ne_nil raw.command a.command hcmd, by omega⟩
  · intro raw env h
    simp [dispatchK8sExec, h]

/-- Witness for k8sExec_validation at a concrete out-of-range timeout of
301 seconds: validation fails and dispatch reports the validation error. -/
theorem k8sExec_validation_witness :
    validateK8sExecArgs ⟨some (JsonVal.str "web"), none, none,
      some (JsonVal.arr [JsonVal.str "ls"]), some (JsonVal.num 301)⟩ = none ∧
    dispatchK8sExec ⟨some (JsonVal.str "web"), none, none,
        some (JsonVal.arr [JsonVal.str "ls"]), some (JsonVal.num 301)⟩
      ⟨Except.ok (), []⟩ = some ⟨"Invalid arguments for tool k8s_exec", true⟩ :=
  have h1 := k8sExec_validation.1 ⟨some (JsonVal.str "web"), none, none,
    some (JsonVal.arr [JsonVal.str "ls"]), some (JsonVal.num 301)⟩ 301 rfl
    (Or.inr (Or.inr (by norm_num)))
  ⟨h1, k8sExec_validation.2.2.2.2 _ ⟨Except.ok (), []⟩ h1⟩

end KubernetesMcp
